import Mathlib

/-!
Shallow embedding of `src/download.py` of the flickr-crawler repository.

The embedding models the pure data flow of the module:
Python exceptions become an explicit error type threaded through `Except`;
the network and the image decoder become an oracle (`World`) mapping URLs to
fetch outcomes and bytes to decoded image dimensions; filesystem writes are
recorded as an ordered trace instead of performed.  Machine-level concerns
(actual sockets, PIL internals, ray scheduling) are abstracted, but every
branch, evaluation order and string operation of the Python source is kept.
-/

/-- Python exceptions that can escape the modelled fragments of the code.
`httpErrorRaised` never escapes `try_download` because the bare
`except HTTPError` clause catches it; connection errors surface as
`urlError` (HTTPError subclasses URLError, not conversely), a failed
`Image.open` as `decodeError` (PIL UnidentifiedImageError). -/
inductive PyError where
  | valueError
  | keyError
  | typeError
  | notImplementedError
  | urlError
  | decodeError
deriving DecidableEq, Repr

/-- A Python/JSON value as it appears in a record field: `none` models JSON
null / Python None, `some s` a primitive rendered as a string. -/
abbrev PyVal := Option String

/-- Python str() of an optional value, as an f-string renders it:
None prints as the four letters None. -/
def pyStr : PyVal → String
  | some s => s
  | none => "None"

/-- One JSON record of a crawl-result batch: an association list from keys to
values, where a present key may still hold null. -/
structure Record where
  fields : List (String × PyVal)
deriving DecidableEq, Repr

/-- Dictionary lookup distinguishing a missing key (outer `none`) from a
present key bound to null (`some none`). -/
def Record.lookup (r : Record) (k : String) : Option PyVal :=
  (r.fields.find? (fun p => p.1 == k)).map (fun p => p.2)

/-- Python `result[k]`: raises KeyError when the key is absent. -/
def Record.getItem (r : Record) (k : String) : Except PyError PyVal :=
  match r.lookup k with
  | none => .error .keyError
  | some v => .ok v

/-- Python `result.get(k)`: None when the key is absent. -/
def Record.get (r : Record) (k : String) : PyVal :=
  (r.lookup k).join

/-- Value of a decimal digit character, none on a non-digit. -/
def charDigit (c : Char) : Option Nat :=
  if '0' ≤ c ∧ c ≤ '9' then some (c.toNat - '0'.toNat) else none

/-- Decimal value of a digit run, accumulated left to right; none as soon
as a non-digit appears. -/
def digitsValAux (acc : Nat) : List Char → Option Nat
  | [] => some acc
  | c :: rest =>
    match charDigit c with
    | none => none
    | some d => digitsValAux (acc * 10 + d) rest

/-- Integer literal parsing as Python `int(str)` performs it on the decimal
strings this program meets: an optional minus sign followed by at least
one digit. -/
def pyIntOfString (s : String) : Option Int :=
  match s.data with
  | [] => none
  | '-' :: rest =>
    match rest with
    | [] => none
    | _ => (digitsValAux 0 rest).map (fun n => -(n : Int))
  | l => (digitsValAux 0 l).map (fun n => (n : Int))

/-- Python `int(v)`: TypeError on None, ValueError on a non-numeric string. -/
def pyInt (v : PyVal) : Except PyError Int :=
  match v with
  | none => .error .typeError
  | some s =>
    match pyIntOfString s with
    | some n => .ok n
    | none => .error .valueError

/-- Fuel-indexed worker for `replaceAll`; the fuel only needs to dominate
the length of the scanned list. -/
def replaceAllAux (pat rep : List Char) : Nat → List Char → List Char
  | 0, s => s
  | _ + 1, [] => []
  | fuel + 1, c :: rest =>
    if pat ≠ [] ∧ pat.isPrefixOf (c :: rest) then
      rep ++ replaceAllAux pat rep fuel ((c :: rest).drop pat.length)
    else
      c :: replaceAllAux pat rep fuel rest

/-- Python `str.replace(pat, rep)` on character lists: replaces every
non-overlapping occurrence, scanning left to right (for a nonempty
pattern; the empty pattern is returned unchanged here, which no call
site exercises). -/
def replaceAll (pat rep s : List Char) : List Char :=
  replaceAllAux pat rep s.length s

/-- Python `str.replace` on strings. -/
def strReplace (s pat rep : String) : String :=
  String.mk (replaceAll pat.data rep.data s.data)

/-- Python `os.path.basename`: the segment after the last slash. -/
def osPathBasename (s : String) : String :=
  String.mk ((s.data.splitOn '/').getLastD [])

/-- Python `os.path.join` for the relative, slash-normalised paths this
program builds (absolute second arguments win, as in CPython). -/
def osPathJoin (a b : String) : String :=
  if b.data.take 1 = ['/'] then b
  else if a = "" ∨ a.data.getLast? = some '/' then a ++ b
  else a ++ "/" ++ b

/-- Python `os.path.splitext(...)[0]`: drop the extension after the last dot
(simplified to the no-leading-dot shapes this program feeds it). -/
def osPathSplitextRoot (s : String) : String :=
  match s.data.splitOn '.' with
  | [] => s
  | [_] => s
  | parts => String.mk (List.intercalate ['.'] parts.dropLast)

/-- Python `os.path.relpath(path, start)` restricted to the shapes this
program produces, where `path` was built by joining components under
`start`. -/
def osPathRelpath (path start : String) : String :=
  if start ≠ "" ∧ (start ++ "/").data.isPrefixOf path.data then
    String.mk (path.data.drop (start.data.length + 1))
  else path

/-- The FlickrUrl descriptor: the attributes set by `FlickrUrl.__init__`.
Field values mirror the Python attributes; `id` is whatever
`result[id]` held, possibly null. -/
structure FlickrUrl where
  id : Option String
  owner : Option String
  secret : Option String
  server : Option String
  farm : Option String
  title : Option String
  url_o : Option String
  size_o : Option (Int × Int)
deriving DecidableEq, Repr

/-- FlickrUrl.__init__: stores the attributes, then raises ValueError when
secret or server is None. -/
def FlickrUrl.init (img_id owner secret server farm title url_o : Option String)
    (size_o : Option (Int × Int)) : Except PyError FlickrUrl :=
  if secret = none ∨ server = none then .error .valueError
  else .ok ⟨img_id, owner, secret, server, farm, title, url_o, size_o⟩

/-- The f-string of FlickrUrl.get_url synthesising a size-coded static URL
from farm, server, id and secret. -/
def FlickrUrl.synthUrl (self : FlickrUrl) (size : String) : String :=
  "https://farm" ++ pyStr self.farm ++ ".staticflickr.com/" ++ pyStr self.server
    ++ "/" ++ pyStr self.id ++ "_" ++ pyStr self.secret ++ "_" ++ size ++ ".jpg"

/-- FlickrUrl.get_url: return url_o verbatim for size o when present,
else synthesise from farm/server/id/secret when farm is present, else
raise NotImplementedError. -/
def FlickrUrl.get_url (self : FlickrUrl) (size : String) : Except PyError String :=
  match (if size = "o" then self.url_o else none) with
  | some u => .ok u
  | none =>
    match self.farm with
    | some _ => .ok (self.synthUrl size)
    | none => .error .notImplementedError

/-- FlickrUrl.basename: basename of the original-size URL with every
occurrence of the substring given to str.replace rewritten. -/
def FlickrUrl.basename (self : FlickrUrl) : Except PyError String :=
  (self.get_url "o").map (fun u => strReplace (osPathBasename u) "_o.jpg" ".jpg")

/-- FlickrUrl.__eq__: two descriptors compare equal exactly when their ids
match; every other field is ignored. -/
def FlickrUrl.pyEq (self other : FlickrUrl) : Bool :=
  if self.id ≠ other.id then false else true

/-- Outcome of one `urlopen` call: a body, an HTTPError raised for a
non-2xx status, or a connection-level URLError. -/
inductive Fetch where
  | content (bytes : String)
  | httpError
  | connError
deriving DecidableEq, Repr

/-- The oracle for the effects try_download observes: what each URL fetch
returns, and what dimensions `Image.open` decodes from given bytes
(`none` models a decode exception). -/
structure World where
  fetch : String → Fetch
  decode : String → Option (Nat × Nat)

/-- The configuration held by a SimpleDownloader actor. -/
structure SimpleDownloader where
  output_dir : String
  thumbs_dir : Option String
deriving DecidableEq, Repr

/-- SimpleDownloader.is_image_valid on the decoded image size
(PIL img.size as width by height). -/
def is_image_valid (size : Nat × Nat) : Bool :=
  if max size.1 size.2 < 75 then false else true

instance {ε α : Type} [DecidableEq ε] [DecidableEq α] : DecidableEq (Except ε α) := fun a b =>
  match a, b with
  | .error e, .error f =>
    if h : e = f then isTrue (by rw [h]) else isFalse (by intro hc; cases hc; exact h rfl)
  | .ok x, .ok y =>
    if h : x = y then isTrue (by rw [h]) else isFalse (by intro hc; cases hc; exact h rfl)
  | .error _, .ok _ => isFalse (by intro hc; cases hc)
  | .ok _, .error _ => isFalse (by intro hc; cases hc)

/-- What one try_download call produced: its return value (Python None
modelled as `Option.none` inside `Except.ok`, an uncaught exception as
`Except.error`), the ordered trace of file writes (path, bytes), and the
ordered trace of URLs fetched. -/
structure DlOutcome where
  result : Except PyError (Option (FlickrUrl × String))
  writes : List (String × String)
  fetched : List String
deriving DecidableEq, Repr

/-- The tail of try_download after the thumbnail was validated and
(possibly) written: fetch the original-size URL and write its bytes under
output_dir, returning the descriptor and the path relative to output_dir.
`ws` is the write trace so far, `thumbUrl` the already-fetched URL. -/
def downloadFull (w : World) (self : SimpleDownloader) (furl : FlickrUrl)
    (subdir : Option String) (thumbUrl : String) (ws : List (String × String)) :
    DlOutcome :=
  match furl.get_url "o" with
  | .error e => ⟨.error e, ws, [thumbUrl]⟩
  | .ok full_url =>
    match w.fetch full_url with
    | .connError => ⟨.error .urlError, ws, [thumbUrl, full_url]⟩
    | .httpError => ⟨.ok none, ws, [thumbUrl, full_url]⟩
    | .content content =>
      match furl.basename with
      | .error e => ⟨.error e, ws, [thumbUrl, full_url]⟩
      | .ok bn =>
        let image_fname :=
          match subdir with
          | some sd => osPathJoin (osPathJoin self.output_dir sd) bn
          | none => osPathJoin self.output_dir bn
        ⟨.ok (some (furl, osPathRelpath image_fname self.output_dir)),
         ws ++ [(image_fname, content)], [thumbUrl, full_url]⟩

/-- SimpleDownloader.try_download: fetch and validate the small thumbnail,
optionally persist it under thumbs_dir, then fetch and persist the
original image under output_dir.  The bare `except HTTPError` clause
turns an HTTPError raised anywhere in the body into a plain None return;
URLError, decode failures and NotImplementedError propagate. -/
def tryDownload (w : World) (self : SimpleDownloader) (furl : FlickrUrl)
    (subdir : Option String) : DlOutcome :=
  match furl.get_url "n" with
  | .error e => ⟨.error e, [], []⟩
  | .ok url =>
    match w.fetch url with
    | .connError => ⟨.error .urlError, [], [url]⟩
    | .httpError => ⟨.ok none, [], [url]⟩
    | .content thumb_content =>
      match w.decode thumb_content with
      | none => ⟨.error .decodeError, [], [url]⟩
      | some dims =>
        if is_image_valid dims = false then ⟨.ok none, [], [url]⟩
        else
          match self.thumbs_dir with
          | none => downloadFull w self furl subdir url []
          | some td =>
            match furl.basename with
            | .error e => ⟨.error e, [], [url]⟩
            | .ok bn =>
              let thumb_fname :=
                match subdir with
                | some sd => osPathJoin (osPathJoin td sd) bn
                | none => osPathJoin td bn
              downloadFull w self furl subdir url [(thumb_fname, thumb_content)]

/-- Parsing of one search-result record inside download_crawled_images:
the width_o branch, then the positional FlickrUrl constructor arguments in
Python evaluation order.  The else branch subscripts the bound method
`result.get` and therefore raises TypeError unconditionally. -/
def parseRecord (r : Record) : Except PyError FlickrUrl := do
  let size_o : Option (Int × Int) ←
    if (r.lookup "width_o").isSome then do
      let wv ← r.getItem "width_o"
      let w ← pyInt wv
      let hv ← r.getItem "height_o"
      let h ← pyInt hv
      pure (some (w, h))
    else
      Except.error PyError.typeError
  let idv ← r.getItem "id"
  let ownerv ← r.getItem "owner"
  let secretv ← r.getItem "secret"
  let serverv ← r.getItem "server"
  let farmv ← r.getItem "farm"
  FlickrUrl.init idv ownerv secretv serverv farmv (r.get "title") (r.get "url_o") size_o

/-- The mutable state of the ingestion loop: the queued_urls set (kept as
the insertion-ordered list of its distinct members) and the ordered pool
submissions (descriptor, subdir argument). -/
structure IngestState where
  queued : List FlickrUrl
  submitted : List (FlickrUrl × Option String)
deriving DecidableEq, Repr

/-- Membership test `furl in queued_urls`, which the Python set resolves
through FlickrUrl.__hash__/__eq__, hence through ids alone. -/
def queuedMember (queued : List FlickrUrl) (furl : FlickrUrl) : Bool :=
  queued.any (fun q => q.pyEq furl)

/-- The inner record loop of download_crawled_images for one batch:
parse each record (an exception aborts the whole loop), skip descriptors
already queued, otherwise add to the set and submit to the pool. -/
def processRecords (create_subdirs : Bool) (name : String) :
    List Record → IngestState → Except PyError IngestState
  | [], st => .ok st
  | r :: rest, st =>
    match parseRecord r with
    | .error e => .error e
    | .ok furl =>
      if queuedMember st.queued furl then
        processRecords create_subdirs name rest st
      else
        let sub :=
          if create_subdirs then some (osPathSplitextRoot (osPathBasename name))
          else none
        processRecords create_subdirs name rest
          ⟨st.queued ++ [furl], st.submitted ++ [(furl, sub)]⟩

/-- One batch of the ingestion loop: open jsonfile `name`, run the record
loop over its parsed contents. -/
def processBatch (create_subdirs : Bool) (name : String) (records : List Record)
    (st : IngestState) : Except PyError IngestState :=
  processRecords create_subdirs name records st

/-- The outer batch loop of download_crawled_images over the sorted json
files: after each batch (never inside one) stop when
`len(queued_urls) > max_images > 0`.  Returns the final state and how
many batches were read. -/
def ingestBatches (create_subdirs : Bool) (max_images : Int) :
    List (String × List Record) → IngestState → Except PyError (IngestState × Nat)
  | [], st => .ok (st, 0)
  | (name, records) :: rest, st =>
    match processBatch create_subdirs name records st with
    | .error e => .error e
    | .ok st1 =>
      if (st1.queued.length : Int) > max_images ∧ max_images > 0 then
        .ok (st1, 1)
      else
        match ingestBatches create_subdirs max_images rest st1 with
        | .error e => .error e
        | .ok (st2, n) => .ok (st2, n + 1)

/-- The result-draining loop: `furl, meta = pool.get_next()` re-raises a
worker exception and raises TypeError when it tries to unpack a plain
None result.  Returns how many results were drained. -/
def drainResults : List (Except PyError (Option (FlickrUrl × String))) → Except PyError Nat
  | [] => .ok 0
  | r :: rest =>
    match r with
    | .error e => .error e
    | .ok none => .error .typeError
    | .ok (some _) =>
      match drainResults rest with
      | .error e => .error e
      | .ok n => .ok (n + 1)

/-- Modelled from the spec wording of `basename()` for comparison with the
source implementation: take the final path segment and rewrite its
trailing size suffix, when present, to a plain extension; segments
without that suffix are left unchanged. -/
def specBasename (url : String) : String :=
  let seg := osPathBasename url
  if ("_o.jpg".data).isSuffixOf seg.data then
    String.mk (seg.data.take (seg.data.length - 6) ++ ".jpg".data)
  else seg

/-- The cap-free sequential composition of the per-batch record loops, used
to state that the cap decides only whether further batches are read and
never truncates a batch that is read. -/
def foldBatches (cs : Bool) : List (String × List Record) → IngestState → Except PyError IngestState
  | [], st => .ok st
  | (name, records) :: rest, st =>
    match processBatch cs name records st with
    | .error e => .error e
    | .ok st1 => foldBatches cs rest st1

section HelperLemmas

theorem pyEq_iff (a b : FlickrUrl) : a.pyEq b = true ↔ a.id = b.id := by
  unfold FlickrUrl.pyEq
  split <;> simp_all

theorem queuedMember_iff (queued : List FlickrUrl) (furl : FlickrUrl) :
    queuedMember queued furl = true ↔ ∃ q ∈ queued, q.id = furl.id := by
  simp [queuedMember, List.any_eq_true, pyEq_iff]

theorem getLast?_append_singleton {α : Type} (l : List α) (a : α) :
    (l ++ [a]).getLast? = some a := by
  induction l with
  | nil => rfl
  | cons b t ih =>
    cases t <;> simp_all [List.getLast?_cons_cons]

theorem error_bind {ε α β : Type} (e : ε) (k : α → Except ε β) :
    (Except.error e >>= k) = Except.error e := rfl

theorem ok_bind {ε α β : Type} (a : α) (k : α → Except ε β) :
    (Except.ok a >>= k : Except ε β) = k a := rfl

end HelperLemmas

/-- C4: the validity predicate accepts a decoded thumbnail exactly when its
longer dimension is at least 75 pixels; a rejected thumbnail makes the
worker return None while fetching only the thumbnail URL and writing
nothing — no full-image fetch and no full-image write occur. -/
theorem c4_thumbnail_gate :
    (∀ dims : Nat × Nat, is_image_valid dims = true ↔ 75 ≤ max dims.1 dims.2) ∧
    (∀ (w : World) (dl : SimpleDownloader) (furl : FlickrUrl) (sub : Option String)
       (url bytes : String) (dims : Nat × Nat),
      furl.get_url "n" = .ok url → w.fetch url = .content bytes →
      w.decode bytes = some dims → max dims.1 dims.2 < 75 →
      tryDownload w dl furl sub = ⟨.ok none, [], [url]⟩) := by
  constructor
  · intro dims
    unfold is_image_valid
    split <;> simp <;> omega
  · intro w dl furl sub url bytes dims h1 h2 h3 h4
    have hv : is_image_valid dims = false := by
      unfold is_image_valid
      simp [h4]
    simp [tryDownload, h1, h2, h3, hv]

def c4furl : FlickrUrl :=
  ⟨some "1", some "ow", some "s", some "sv", some "9", none, none, none⟩

def c4world : World := ⟨fun _ => .content "TINY", fun _ => some (74, 40)⟩

def c4dl : SimpleDownloader := ⟨"out/images", some "out/thumbs"⟩

theorem c4_witness :
    (is_image_valid (74, 40) = true ↔ 75 ≤ max 74 40) ∧
    tryDownload c4world c4dl c4furl none =
      ⟨.ok none, [], ["https://farm9.staticflickr.com/sv/1_s_n.jpg"]⟩ :=
  ⟨(c4_thumbnail_gate.1 (74, 40)),
   c4_thumbnail_gate.2 c4world c4dl c4furl none
     "https://farm9.staticflickr.com/sv/1_s_n.jpg" "TINY" (74, 40)
     (by decide) rfl rfl (by decide)⟩

/-- C5: get_url returns the explicit original URL verbatim for size o when
one was supplied; otherwise, whenever farm information is present, it
returns the synthesised farm/server/id/secret URL for the requested size
code; and it raises NotImplementedError exactly when farm information is
absent and no explicit URL applies to the requested size. -/
theorem c5_url_derivation (furl : FlickrUrl) (size : String) :
    (∀ u, furl.url_o = some u → furl.get_url "o" = .ok u) ∧
    ((size = "o" → furl.url_o = none) → ∀ f sv i sc,
      furl.farm = some f → furl.server = some sv → furl.id = some i →
      furl.secret = some sc →
      furl.get_url size =
        .ok ("https://farm" ++ f ++ ".staticflickr.com/" ++ sv ++ "/" ++ i ++ "_"
          ++ sc ++ "_" ++ size ++ ".jpg")) ∧
    (furl.get_url size = .error .notImplementedError ↔
      furl.farm = none ∧ (size = "o" → furl.url_o = none)) := by
  refine ⟨?_, ?_, ?_⟩
  · intro u hu
    simp [FlickrUrl.get_url, hu]
  · intro h f sv i sc hf hsv hi hsc
    by_cases hs : size = "o"
    · simp [FlickrUrl.get_url, hs, h hs, hf, FlickrUrl.synthUrl, pyStr, hsv, hi, hsc]
    · simp [FlickrUrl.get_url, hs, hf, FlickrUrl.synthUrl, pyStr, hsv, hi, hsc]
  · by_cases hs : size = "o" <;> cases hu : furl.url_o <;> cases hf : furl.farm <;>
      simp [FlickrUrl.get_url, hs, hu, hf]

def c5furl : FlickrUrl :=
  ⟨some "7", some "ow", some "sec", some "srv", some "3", none,
   some "http://orig/x_o.jpg", none⟩

theorem c5_witness :
    FlickrUrl.get_url c5furl "o" = .ok "http://orig/x_o.jpg" ∧
    FlickrUrl.get_url c5furl "b" = .ok "https://farm3.staticflickr.com/srv/7_sec_b.jpg" := by
  constructor
  · exact (c5_url_derivation c5furl "o").1 "http://orig/x_o.jpg" rfl
  · have h := (c5_url_derivation c5furl "b").2.1
      (fun hs => absurd hs (by decide)) "3" "srv" "7" "sec" rfl rfl rfl rfl
    rw [h]
    decide

/-- C7: FlickrUrl construction raises ValueError exactly when the secret or
the server argument is None; with both present it succeeds, storing the
given attributes, and every successfully constructed descriptor carries a
non-None secret and server (so the failure happens at construction, not
later at fetch time). -/
theorem c7_construction (idv ow sec srv frm ttl uo : Option String)
    (so : Option (Int × Int)) :
    (FlickrUrl.init idv ow sec srv frm ttl uo so = .error .valueError ↔
      sec = none ∨ srv = none) ∧
    (∀ s v, sec = some s → srv = some v →
      FlickrUrl.init idv ow sec srv frm ttl uo so =
        .ok ⟨idv, ow, sec, srv, frm, ttl, uo, so⟩) ∧
    (∀ furl, FlickrUrl.init idv ow sec srv frm ttl uo so = .ok furl →
      furl.secret ≠ none ∧ furl.server ≠ none) := by
  refine ⟨?_, ?_, ?_⟩
  · unfold FlickrUrl.init
    split <;> simp_all
  · intro s v hs hv
    unfold FlickrUrl.init
    simp [hs, hv]
  · intro furl h
    unfold FlickrUrl.init at h
    split at h
    · cases h
    · rename_i hc
      cases h
      push_neg at hc
      simpa using hc

theorem c7_witness :
    FlickrUrl.init (some "1") (some "ow") (some "s") (some "sv") (some "9")
        none none none =
      .ok ⟨some "1", some "ow", some "s", some "sv", some "9", none, none, none⟩ :=
  (c7_construction (some "1") (some "ow") (some "s") (some "sv") (some "9")
      none none none).2.1 "s" "sv" rfl rfl

/-- C10: a record without the width key makes record parsing raise
TypeError unconditionally (the fallback subscripts the bound method
`result.get`); hence only records carrying that key can ever produce a
descriptor, and reaching such a record aborts the batch loop with the
same TypeError. -/
theorem c10_width_fallback (r : Record) :
    (r.lookup "width_o" = none → parseRecord r = .error .typeError) ∧
    (∀ furl, parseRecord r = .ok furl → (r.lookup "width_o").isSome) ∧
    (∀ cs name rest st, r.lookup "width_o" = none →
      processBatch cs name (r :: rest) st = .error .typeError) := by
  have hp : r.lookup "width_o" = none → parseRecord r = .error .typeError := by
    intro h
    simp [parseRecord, h, error_bind]
  refine ⟨hp, ?_, ?_⟩
  · intro furl h
    by_cases hw : (r.lookup "width_o").isSome
    · exact hw
    · rw [Option.not_isSome_iff_eq_none] at hw
      rw [hp hw] at h
      cases h
  · intro cs name rest st h
    simp [processBatch, processRecords, hp h]

def c10rec : Record :=
  ⟨[("id", some "1"), ("owner", some "ow"), ("secret", some "s"),
    ("server", some "sv"), ("farm", some "9")]⟩

theorem c10_witness :
    parseRecord c10rec = .error .typeError ∧
    processBatch true "b.json" [c10rec] ⟨[], []⟩ = .error .typeError :=
  ⟨(c10_width_fallback c10rec).1 rfl,
   (c10_width_fallback c10rec).2.2 true "b.json" [] ⟨[], []⟩ rfl⟩

/-- Invariant of the ingestion state: the queued-set members and the pool
submissions carry the same ids in the same order, and those ids are
pairwise distinct. -/
def GoodState (st : IngestState) : Prop :=
  st.queued.map (fun q => q.id) = st.submitted.map (fun s => (s.1).id) ∧
  (st.queued.map (fun q => q.id)).Nodup

theorem processRecords_cons_err (cs : Bool) (name : String) (r : Record)
    (rest : List Record) (st : IngestState) (e : PyError)
    (hp : parseRecord r = .error e) :
    processRecords cs name (r :: rest) st = .error e := by
  unfold processRecords
  rw [hp]

theorem processRecords_cons_ok (cs : Bool) (name : String) (r : Record)
    (rest : List Record) (st : IngestState) (furl : FlickrUrl)
    (hp : parseRecord r = .ok furl) :
    processRecords cs name (r :: rest) st =
      if queuedMember st.queued furl = true then
        processRecords cs name rest st
      else
        processRecords cs name rest
          ⟨st.queued ++ [furl],
           st.submitted ++ [(furl,
             if cs = true then some (osPathSplitextRoot (osPathBasename name))
             else none)]⟩ := by
  conv_lhs => rw [processRecords]
  rw [hp]

theorem ingestBatches_cons_ok (cs : Bool) (mi : Int) (name : String)
    (records : List Record) (rest : List (String × List Record))
    (st st1 : IngestState) (hp : processBatch cs name records st = .ok st1) :
    ingestBatches cs mi ((name, records) :: rest) st =
      if (st1.queued.length : Int) > mi ∧ mi > 0 then .ok (st1, 1)
      else
        match ingestBatches cs mi rest st1 with
        | .error e => .error e
        | .ok (st2, n) => .ok (st2, n + 1) := by
  conv_lhs => rw [ingestBatches]
  rw [hp]

theorem processRecords_mono (cs : Bool) (name : String) :
    ∀ (recs : List Record) (st st2 : IngestState),
      processRecords cs name recs st = .ok st2 →
      st.queued <+: st2.queued ∧ st.submitted <+: st2.submitted := by
  intro recs
  induction recs with
  | nil =>
    intro st st2 h
    cases h
    exact ⟨List.prefix_refl _, List.prefix_refl _⟩
  | cons r rest ih =>
    intro st st2 h
    cases hp : parseRecord r with
    | error e =>
      rw [processRecords_cons_err cs name r rest st e hp] at h
      cases h
    | ok furl =>
      rw [processRecords_cons_ok cs name r rest st furl hp] at h
      by_cases hm : queuedMember st.queued furl = true
      · rw [if_pos hm] at h
        exact ih st st2 h
      · rw [if_neg hm] at h
        obtain ⟨h1, h2⟩ := ih _ st2 h
        exact ⟨List.IsPrefix.trans ⟨[furl], rfl⟩ h1,
               List.IsPrefix.trans ⟨_, rfl⟩ h2⟩

theorem processRecords_good (cs : Bool) (name : String) :
    ∀ (recs : List Record) (st st2 : IngestState), GoodState st →
      processRecords cs name recs st = .ok st2 → GoodState st2 := by
  intro recs
  induction recs with
  | nil =>
    intro st st2 hg h
    cases h
    exact hg
  | cons r rest ih =>
    intro st st2 hg h
    cases hp : parseRecord r with
    | error e =>
      rw [processRecords_cons_err cs name r rest st e hp] at h
      cases h
    | ok furl =>
      rw [processRecords_cons_ok cs name r rest st furl hp] at h
      by_cases hm : queuedMember st.queued furl = true
      · rw [if_pos hm] at h
        exact ih st st2 hg h
      · rw [if_neg hm] at h
        apply ih _ st2 _ h
        have hnotin : furl.id ∉ st.queued.map (fun q => q.id) := by
          simp only [List.mem_map]
          rintro ⟨q, hq, hEq⟩
          exact hm ((queuedMember_iff _ _).2 ⟨q, hq, hEq⟩)
        constructor
        · simp [hg.1]
        · rw [List.map_append]
          simp only [List.map_cons, List.map_nil]
          rw [List.nodup_append]
          exact ⟨hg.2, List.nodup_singleton _,
                 fun x hx => by
                   simp only [List.mem_singleton]
                   rintro rfl
                   exact hnotin hx⟩

theorem ingestBatches_good (cs : Bool) (mi : Int) :
    ∀ (batches : List (String × List Record)) (st st2 : IngestState) (n : Nat),
      GoodState st → ingestBatches cs mi batches st = .ok (st2, n) → GoodState st2 := by
  intro batches
  induction batches with
  | nil =>
    intro st st2 n hg h
    cases h
    exact hg
  | cons b rest ih =>
    intro st st2 n hg h
    obtain ⟨name, records⟩ := b
    cases hp : processBatch cs name records st with
    | error e =>
      unfold ingestBatches at h
      rw [hp] at h
      cases h
    | ok st1 =>
      rw [ingestBatches_cons_ok cs mi name records rest st st1 hp] at h
      have hg1 : GoodState st1 := processRecords_good cs name records st st1 hg hp
      by_cases hc : ((st1.queued.length : Int) > mi ∧ mi > 0)
      · rw [if_pos hc] at h
        cases h
        exact hg1
      · rw [if_neg hc] at h
        cases hrec : ingestBatches cs mi rest st1 with
        | error e =>
          rw [hrec] at h
          cases h
        | ok p =>
          rw [hrec] at h
          have h2 : (Except.ok (p.1, p.2 + 1) : Except PyError (IngestState × Nat))
              = .ok (st2, n) := h
          cases h2
          exact ih st1 p.1 p.2 hg1 hrec

/-- C3: descriptor identity is the id alone — equal ids compare equal no
matter the other fields; starting from an empty deduplication set, the
ids ever submitted to the pool are pairwise distinct (one fetch attempt
per identity across the whole run) and coincide with the members of the
set; and the set and submission list only grow across a batch. -/
theorem c3_dedup_by_id (A B : FlickrUrl) (cs : Bool) (mi : Int)
    (batches : List (String × List Record)) (st st2 : IngestState) (n : Nat) :
    (A.id = B.id → A.pyEq B = true) ∧
    (ingestBatches cs mi batches ⟨[], []⟩ = .ok (st2, n) →
      (st2.submitted.map (fun s => (s.1).id)).Nodup ∧
      st2.queued.map (fun q => q.id) = st2.submitted.map (fun s => (s.1).id)) ∧
    (∀ name records, processBatch cs name records st = .ok st2 →
      st.queued <+: st2.queued ∧ st.submitted <+: st2.submitted) := by
  refine ⟨?_, ?_, ?_⟩
  · intro h
    exact (pyEq_iff A B).2 h
  · intro h
    have hg := ingestBatches_good cs mi batches ⟨[], []⟩ st2 n ⟨rfl, List.nodup_nil⟩ h
    exact ⟨hg.1 ▸ hg.2, hg.1⟩
  · intro name records h
    exact processRecords_mono cs name records st st2 h

def c3rec1 : Record :=
  ⟨[("id", some "1"), ("owner", some "o"), ("secret", some "s"),
    ("server", some "sv"), ("farm", some "f"),
    ("width_o", some "10"), ("height_o", some "20")]⟩

def c3rec2 : Record :=
  ⟨[("id", some "1"), ("owner", some "o2"), ("secret", some "s2"),
    ("server", some "sv2"), ("farm", some "f2"),
    ("width_o", some "30"), ("height_o", some "40")]⟩

def c3batches : List (String × List Record) :=
  [("b1.json", [c3rec1]), ("b2.json", [c3rec2])]

def c3run : Except PyError (IngestState × Nat) :=
  ingestBatches true (-1) c3batches ⟨[], []⟩

def c3st : IngestState :=
  match c3run with
  | .ok p => p.1
  | .error _ => ⟨[], []⟩

def c3n : Nat :=
  match c3run with
  | .ok p => p.2
  | .error _ => 0

def c3A : FlickrUrl :=
  ⟨some "1", some "o", some "s", some "sv", some "f", none, none, some (10, 20)⟩

def c3B : FlickrUrl :=
  ⟨some "1", some "o2", some "s2", some "sv2", some "f2", none, none, some (30, 40)⟩

theorem c3_witness :
    FlickrUrl.pyEq c3A c3B = true ∧
    (c3st.submitted.map (fun s => (s.1).id)).Nodup ∧
    c3st.submitted.length = 1 := by
  refine ⟨?_, ?_, by decide⟩
  · exact (c3_dedup_by_id c3A c3B true (-1) c3batches ⟨[], []⟩ c3st c3n).1 rfl
  · exact ((c3_dedup_by_id c3A c3B true (-1) c3batches ⟨[], []⟩ c3st c3n).2.1
      (by decide)).1

theorem ingestBatches_sentinel (cs : Bool) (mi : Int) (hmi : mi ≤ 0) :
    ∀ (batches : List (String × List Record)) (st st2 : IngestState) (n : Nat),
      ingestBatches cs mi batches st = .ok (st2, n) → n = batches.length := by
  intro batches
  induction batches with
  | nil =>
    intro st st2 n h
    cases h
    rfl
  | cons b rest ih =>
    intro st st2 n h
    obtain ⟨name, records⟩ := b
    cases hp : processBatch cs name records st with
    | error e =>
      unfold ingestBatches at h
      rw [hp] at h
      cases h
    | ok st1 =>
      rw [ingestBatches_cons_ok cs mi name records rest st st1 hp] at h
      have hc : ¬((st1.queued.length : Int) > mi ∧ mi > 0) := by
        rintro ⟨_, h2⟩
        omega
      rw [if_neg hc] at h
      cases hrec : ingestBatches cs mi rest st1 with
      | error e =>
        rw [hrec] at h
        cases h
      | ok p =>
        rw [hrec] at h
        have h2 : (Except.ok (p.1, p.2 + 1) : Except PyError (IngestState × Nat))
            = .ok (st2, n) := h
        cases h2
        simp [ih st1 p.1 p.2 hrec]

theorem ingestBatches_take (cs : Bool) (mi : Int) :
    ∀ (batches : List (String × List Record)) (st st2 : IngestState) (n : Nat),
      ingestBatches cs mi batches st = .ok (st2, n) →
      n ≤ batches.length ∧ foldBatches cs (batches.take n) st = .ok st2 := by
  intro batches
  induction batches with
  | nil =>
    intro st st2 n h
    cases h
    exact ⟨Nat.le_refl 0, rfl⟩
  | cons b rest ih =>
    intro st st2 n h
    obtain ⟨name, records⟩ := b
    cases hp : processBatch cs name records st with
    | error e =>
      unfold ingestBatches at h
      rw [hp] at h
      cases h
    | ok st1 =>
      rw [ingestBatches_cons_ok cs mi name records rest st st1 hp] at h
      by_cases hc : ((st1.queued.length : Int) > mi ∧ mi > 0)
      · rw [if_pos hc] at h
        cases h
        refine ⟨by simp, ?_⟩
        simp [foldBatches, hp]
      · rw [if_neg hc] at h
        cases hrec : ingestBatches cs mi rest st1 with
        | error e =>
          rw [hrec] at h
          cases h
        | ok p =>
          rw [hrec] at h
          have h2 : (Except.ok (p.1, p.2 + 1) : Except PyError (IngestState × Nat))
              = .ok (st2, n) := h
          cases h2
          obtain ⟨hle, hfold⟩ := ih st1 p.1 p.2 hrec
          refine ⟨by simpa using Nat.succ_le_succ hle, ?_⟩
          simp [List.take_succ_cons, foldBatches, hp, hfold]

def c6rec (i : String) : Record :=
  ⟨[("id", some i), ("owner", some "ow"), ("secret", some "sec"),
    ("server", some "srv"), ("farm", some "9"),
    ("width_o", some "100"), ("height_o", some "80")]⟩

def c6batches : List (String × List Record) :=
  [("b1.json", ["1", "2", "3", "4", "5", "6"].map c6rec),
   ("b2.json", ["7", "8", "9", "10", "11", "12"].map c6rec),
   ("b3.json", ["13", "14", "15", "16", "17", "18"].map c6rec)]

/-- C6: the maximum-descriptor cap is consulted only after a batch has been
fully ingested — whenever the loop stops after n batches, those n batches
were processed in full (the cap-free composition reproduces the final
state), a non-positive cap (the default sentinel -1) never stops
ingestion, and on three batches of six with cap 10 exactly two batches
are read and all 12 of their descriptors are submitted. -/
theorem c6_cap_between_batches (cs : Bool) (mi : Int)
    (batches : List (String × List Record)) (st st2 : IngestState) (n : Nat) :
    (mi ≤ 0 → ingestBatches cs mi batches st = .ok (st2, n) → n = batches.length) ∧
    (ingestBatches cs mi batches st = .ok (st2, n) →
      n ≤ batches.length ∧ foldBatches cs (batches.take n) st = .ok st2) ∧
    (Except.map (fun p => ((p.1).submitted.length, p.2))
        (ingestBatches true 10 c6batches ⟨[], []⟩) = Except.ok (12, 2)) :=
  ⟨fun hmi h => ingestBatches_sentinel cs mi hmi batches st st2 n h,
   fun h => ingestBatches_take cs mi batches st st2 n h,
   by decide⟩

def c6run : Except PyError (IngestState × Nat) :=
  ingestBatches true (-1) c6batches ⟨[], []⟩

def c6st : IngestState :=
  match c6run with
  | .ok p => p.1
  | .error _ => ⟨[], []⟩

def c6n : Nat :=
  match c6run with
  | .ok p => p.2
  | .error _ => 0

theorem c6_witness :
    c6n = c6batches.length ∧
    foldBatches true (c6batches.take c6n) ⟨[], []⟩ = .ok c6st :=
  ⟨(c6_cap_between_batches true (-1) c6batches ⟨[], []⟩ c6st c6n).1
      (by decide) (by decide),
   ((c6_cap_between_batches true (-1) c6batches ⟨[], []⟩ c6st c6n).2.1
      (by decide)).2⟩

theorem downloadFull_shape (w : World) (dl : SimpleDownloader) (furl : FlickrUrl)
    (sub : Option String) (thumbUrl : String) (ws : List (String × String)) :
    (∃ p c, (downloadFull w dl furl sub thumbUrl ws).result =
        .ok (some (furl, osPathRelpath p dl.output_dir)) ∧
      ((downloadFull w dl furl sub thumbUrl ws).writes).getLast? = some (p, c)) ∨
    (downloadFull w dl furl sub thumbUrl ws).result = .ok none ∨
    (∃ e, (downloadFull w dl furl sub thumbUrl ws).result = .error e) := by
  unfold downloadFull
  split
  · exact Or.inr (Or.inr ⟨_, rfl⟩)
  · split
    · exact Or.inr (Or.inr ⟨_, rfl⟩)
    · exact Or.inr (Or.inl rfl)
    · split
      · exact Or.inr (Or.inr ⟨_, rfl⟩)
      · exact Or.inl ⟨_, _, rfl, getLast?_append_singleton _ _⟩

/-- C2 (amended shape): one call of the fetch worker on a submitted
descriptor yields exactly one of: a success whose value carries that very
descriptor together with the path of the file it just wrote relative to
the output root; a bare None (the catch-all for an HTTP error status on
either fetch, and for a rejected thumbnail) carrying neither descriptor
nor cause; or a propagated exception. -/
theorem c2_result_shape (w : World) (dl : SimpleDownloader) (furl : FlickrUrl)
    (sub : Option String) :
    (∃ p c, (tryDownload w dl furl sub).result =
        .ok (some (furl, osPathRelpath p dl.output_dir)) ∧
      ((tryDownload w dl furl sub).writes).getLast? = some (p, c)) ∨
    (tryDownload w dl furl sub).result = .ok none ∨
    (∃ e, (tryDownload w dl furl sub).result = .error e) := by
  unfold tryDownload
  split
  · exact Or.inr (Or.inr ⟨_, rfl⟩)
  · split
    · exact Or.inr (Or.inr ⟨_, rfl⟩)
    · exact Or.inr (Or.inl rfl)
    · split
      · exact Or.inr (Or.inr ⟨_, rfl⟩)
      · split
        · exact Or.inr (Or.inl rfl)
        · split
          · exact downloadFull_shape w dl furl sub _ _
          · split
            · exact Or.inr (Or.inr ⟨_, rfl⟩)
            · exact downloadFull_shape w dl furl sub _ _

theorem c2_witness :
    (∃ p c, (tryDownload (⟨fun _ => .content "B", fun _ => some (320, 240)⟩ : World)
          ⟨"out/images", some "out/thumbs"⟩
          ⟨some "1", some "ow", some "s", some "sv", some "9", none, none, none⟩
          (some "b1")).result =
        .ok (some (⟨some "1", some "ow", some "s", some "sv", some "9", none, none, none⟩,
          osPathRelpath p "out/images")) ∧
      ((tryDownload (⟨fun _ => .content "B", fun _ => some (320, 240)⟩ : World)
          ⟨"out/images", some "out/thumbs"⟩
          ⟨some "1", some "ow", some "s", some "sv", some "9", none, none, none⟩
          (some "b1")).writes).getLast? = some (p, c)) ∨
    (tryDownload (⟨fun _ => .content "B", fun _ => some (320, 240)⟩ : World)
        ⟨"out/images", some "out/thumbs"⟩
        ⟨some "1", some "ow", some "s", some "sv", some "9", none, none, none⟩
        (some "b1")).result = .ok none ∨
    (∃ e, (tryDownload (⟨fun _ => .content "B", fun _ => some (320, 240)⟩ : World)
        ⟨"out/images", some "out/thumbs"⟩
        ⟨some "1", some "ow", some "s", some "sv", some "9", none, none, none⟩
        (some "b1")).result = .error e) :=
  c2_result_shape ⟨fun _ => .content "B", fun _ => some (320, 240)⟩
    ⟨"out/images", some "out/thumbs"⟩
    ⟨some "1", some "ow", some "s", some "sv", some "9", none, none, none⟩
    (some "b1")

def c2world : World := ⟨fun _ => .httpError, fun _ => none⟩

def c2worldConn : World := ⟨fun _ => .connError, fun _ => none⟩

def c2dl : SimpleDownloader := ⟨"out/images", some "out/thumbs"⟩

def c2d1 : FlickrUrl :=
  ⟨some "1", some "ow", some "s", some "sv", some "9", none, none, none⟩

def c2d2 : FlickrUrl :=
  ⟨some "2", some "ow2", some "s2", some "sv2", some "9", none, none, none⟩

/-- C2 counterexample: on an HTTP error status during the thumbnail fetch,
two distinct descriptors produce the very same outcome — a bare None
carrying neither the descriptor nor any cause — so no reported failure
carries (descriptor, cause); and a connection error does not produce a
reported failure at all but propagates an exception out of the worker. -/
theorem c2_counterexample :
    c2d1 ≠ c2d2 ∧
    (tryDownload c2world c2dl c2d1 none).result =
      (tryDownload c2world c2dl c2d2 none).result ∧
    (tryDownload c2world c2dl c2d1 none).result = .ok none ∧
    (tryDownload c2worldConn c2dl c2d1 none).result = .error .urlError := by
  refine ⟨by decide, by decide, by decide, by decide⟩

/-- C9: when the thumbnail phase succeeded, thumbnail persistence is
enabled and the thumbnail was written, any transport failure on the
subsequent full-image fetch — an HTTP error status (caught, the worker
returns None) just as a connection-level URLError (uncaught, the worker
raises) — leaves the write trace still containing exactly the thumbnail
file: the thumbnail is left in place (the model has no delete operation
and the trace is append-only) and no full-image file is written. -/
theorem c9_no_rollback (w : World) (dl : SimpleDownloader) (furl : FlickrUrl)
    (sub : Option String) (td url bytes fullUrl bn : String) (dims : Nat × Nat)
    (h0 : dl.thumbs_dir = some td)
    (h1 : furl.get_url "n" = .ok url)
    (h2 : w.fetch url = .content bytes)
    (h3 : w.decode bytes = some dims)
    (h4 : is_image_valid dims = true)
    (h5 : furl.basename = .ok bn)
    (h6 : furl.get_url "o" = .ok fullUrl) :
    (w.fetch fullUrl = .httpError →
      tryDownload w dl furl sub =
        ⟨.ok none,
         [(osPathJoin (match sub with
            | some sd => osPathJoin td sd
            | none => td) bn, bytes)],
         [url, fullUrl]⟩) ∧
    (w.fetch fullUrl = .connError →
      tryDownload w dl furl sub =
        ⟨.error .urlError,
         [(osPathJoin (match sub with
            | some sd => osPathJoin td sd
            | none => td) bn, bytes)],
         [url, fullUrl]⟩) := by
  constructor
  · intro h7
    simp only [tryDownload, downloadFull, h0, h1, h2, h3, h4, h5, h6, h7,
      Bool.true_eq_false, if_false, DlOutcome.mk.injEq, and_true, true_and]
    cases sub <;> simp
  · intro h7
    simp only [tryDownload, downloadFull, h0, h1, h2, h3, h4, h5, h6, h7,
      Bool.true_eq_false, if_false, DlOutcome.mk.injEq, and_true, true_and]
    cases sub <;> simp

def c9furl : FlickrUrl :=
  ⟨some "1", some "ow", some "s", some "sv", some "9", none, none, none⟩

def c9world : World :=
  ⟨fun u => if u = "https://farm9.staticflickr.com/sv/1_s_n.jpg"
      then .content "THUMB" else .httpError,
   fun _ => some (320, 240)⟩

def c9worldConn : World :=
  ⟨fun u => if u = "https://farm9.staticflickr.com/sv/1_s_n.jpg"
      then .content "THUMB" else .connError,
   fun _ => some (320, 240)⟩

theorem c9_witness :
    tryDownload c9world ⟨"out/images", some "out/thumbs"⟩ c9furl (some "b1") =
      ⟨.ok none, [("out/thumbs/b1/1_s.jpg", "THUMB")],
       ["https://farm9.staticflickr.com/sv/1_s_n.jpg",
        "https://farm9.staticflickr.com/sv/1_s_o.jpg"]⟩ ∧
    tryDownload c9worldConn ⟨"out/images", some "out/thumbs"⟩ c9furl (some "b1") =
      ⟨.error .urlError, [("out/thumbs/b1/1_s.jpg", "THUMB")],
       ["https://farm9.staticflickr.com/sv/1_s_n.jpg",
        "https://farm9.staticflickr.com/sv/1_s_o.jpg"]⟩ := by
  constructor
  · have h := (c9_no_rollback c9world ⟨"out/images", some "out/thumbs"⟩ c9furl
      (some "b1") "out/thumbs" "https://farm9.staticflickr.com/sv/1_s_n.jpg" "THUMB"
      "https://farm9.staticflickr.com/sv/1_s_o.jpg" "1_s.jpg" (320, 240)
      rfl (by decide) (by decide) rfl (by decide) (by decide) (by decide)).1
      (by decide)
    rw [h]
    decide
  · have h := (c9_no_rollback c9worldConn ⟨"out/images", some "out/thumbs"⟩ c9furl
      (some "b1") "out/thumbs" "https://farm9.staticflickr.com/sv/1_s_n.jpg" "THUMB"
      "https://farm9.staticflickr.com/sv/1_s_o.jpg" "1_s.jpg" (320, 240)
      rfl (by decide) (by decide) rfl (by decide) (by decide) (by decide)).2
      (by decide)
    rw [h]
    decide

/-- C1 (amended): per-descriptor failures are not local in this code.  In
an otherwise well-formed record, a missing secret key makes record
parsing raise KeyError, which aborts the whole batch loop at that record
(the remaining records are neither constructed nor submitted); a fetch
attempt that fails with an HTTP error status returns None; and a None
result makes the tuple unpacking in the result-draining loop raise
TypeError, aborting draining. -/
theorem c1_failures_abort (r : Record) (ws hs : String) (wn hn : Int)
    (idv ov : PyVal)
    (hw : r.lookup "width_o" = some (some ws))
    (hwn : pyIntOfString ws = some wn)
    (hh : r.lookup "height_o" = some (some hs))
    (hhn : pyIntOfString hs = some hn)
    (hid : r.lookup "id" = some idv)
    (how : r.lookup "owner" = some ov)
    (hsec : r.lookup "secret" = none) :
    (parseRecord r = .error .keyError ∧
     ∀ cs name rest st, processBatch cs name (r :: rest) st = .error .keyError) ∧
    (∀ rest, drainResults (Except.ok none :: rest) = .error .typeError) ∧
    (∀ (w : World) (dl : SimpleDownloader) (furl : FlickrUrl) (sub : Option String)
       (url : String), furl.get_url "n" = .ok url → w.fetch url = .httpError →
      (tryDownload w dl furl sub).result = .ok none) := by
  have hp : parseRecord r = .error .keyError := by
    simp [parseRecord, hw, hwn, hh, hhn, hid, how, hsec, Record.getItem, pyInt,
      error_bind, ok_bind]
  refine ⟨⟨hp, ?_⟩, ?_, ?_⟩
  · intro cs name rest st
    exact processRecords_cons_err cs name r rest st PyError.keyError hp
  · intro rest
    rfl
  · intro w dl furl sub url h1 h2
    simp [tryDownload, h1, h2]

def c1full (i : String) : Record :=
  ⟨[("id", some i), ("owner", some "ow"), ("secret", some "sec"),
    ("server", some "srv"), ("farm", some "9"),
    ("width_o", some "100"), ("height_o", some "80")]⟩

def c1bad : Record :=
  ⟨[("id", some "2"), ("owner", some "ow"),
    ("server", some "srv"), ("farm", some "9"),
    ("width_o", some "100"), ("height_o", some "80")]⟩

def c1batch : List Record := [c1full "1", c1bad, c1full "3", c1full "4", c1full "5"]

/-- C1 counterexample: a batch of five records whose second record lacks
the secret key makes the batch loop raise KeyError instead of skipping
that record and completing with four submissions; and draining a single
None result raises TypeError instead of letting the run proceed. -/
theorem c1_counterexample :
    processBatch true "batch.json" c1batch ⟨[], []⟩ = .error .keyError ∧
    drainResults [Except.ok none] = .error .typeError := by
  refine ⟨by decide, by decide⟩

theorem c1_witness :
    parseRecord c1bad = .error .keyError ∧
    drainResults (Except.ok none :: []) = .error .typeError :=
  ⟨((c1_failures_abort c1bad "100" "80" 100 80 (some "2") (some "ow")
      rfl rfl rfl rfl rfl rfl rfl).1).1,
   (c1_failures_abort c1bad "100" "80" 100 80 (some "2") (some "ow")
      rfl rfl rfl rfl rfl rfl rfl).2.1 []⟩

theorem isPrefixOf_self (l : List Char) : l.isPrefixOf l = true := by
  induction l with
  | nil => rfl
  | cons c t ih => simp [List.isPrefixOf, ih]

theorem replaceAllAux_nil (pat rep : List Char) (fuel : Nat) :
    replaceAllAux pat rep fuel [] = [] := by
  cases fuel <;> rfl

theorem replaceAllAux_append_pat (pat rep : List Char) (hp : pat ≠ []) :
    ∀ (pre : List Char) (fuel : Nat), (pre ++ pat).length ≤ fuel →
      (∀ i, i < pre.length → ¬ pat.isPrefixOf ((pre ++ pat).drop i)) →
      replaceAllAux pat rep fuel (pre ++ pat) = pre ++ rep := by
  intro pre
  induction pre with
  | nil =>
    intro fuel hf _
    simp only [List.nil_append] at *
    cases hpl : pat with
    | nil => exact absurd hpl hp
    | cons p ps =>
      subst hpl
      cases fuel with
      | zero => simp at hf
      | succ f =>
        rw [replaceAllAux]
        rw [if_pos ⟨List.cons_ne_nil p ps, isPrefixOf_self (p :: ps)⟩]
        rw [List.drop_length, replaceAllAux_nil]
        simp
  | cons c pre2 ihp =>
    intro fuel hf hno
    cases fuel with
    | zero =>
      exfalso
      simp at hf
    | succ f =>
      have hnot0 : ¬ pat.isPrefixOf ((c :: pre2) ++ pat) = true := by
        have h0 := hno 0 (by simp)
        simpa using h0
      rw [List.cons_append, replaceAllAux]
      rw [if_neg (fun hcond => hnot0 hcond.2)]
      rw [ihp f ?hlen ?hno2]
      case hlen =>
        simp only [List.cons_append, List.length_cons] at hf
        omega
      case hno2 =>
        intro i hi
        have := hno (i + 1) (by simpa using Nat.succ_lt_succ hi)
        simpa [List.drop_succ_cons] using this
      rfl

/-- C8 (amended): basename applies Python str.replace, which rewrites every
occurrence of the thumbnail-suffix substring in the final path segment of
the original-size URL, not only a trailing one; whenever the substring
occurs exactly once and as the trailing suffix this coincides with the
rewriting of the suffix that the spec describes; and basename is a pure
function of the original-size URL, so two descriptors with the same
original-size URL (and any run of repeated calls) get the same name. -/
theorem c8_basename_replace (furl : FlickrUrl) (u : String) :
    (furl.get_url "o" = .ok u →
      furl.basename = .ok (strReplace (osPathBasename u) "_o.jpg" ".jpg")) ∧
    (∀ g : FlickrUrl, furl.get_url "o" = g.get_url "o" →
      furl.basename = g.basename) ∧
    (∀ pre : List Char, furl.get_url "o" = .ok u →
      (osPathBasename u).data = pre ++ "_o.jpg".data →
      (∀ i, i < pre.length →
        ¬ ("_o.jpg".data).isPrefixOf ((pre ++ "_o.jpg".data).drop i)) →
      furl.basename = .ok (String.mk (pre ++ ".jpg".data))) := by
  refine ⟨?_, ?_, ?_⟩
  · intro h
    simp [FlickrUrl.basename, h, Except.map]
  · intro g h
    simp [FlickrUrl.basename, h]
  · intro pre h hseg hno
    simp only [FlickrUrl.basename, h, Except.map]
    unfold strReplace replaceAll
    rw [hseg]
    rw [replaceAllAux_append_pat "_o.jpg".data ".jpg".data (by decide) pre
      (pre ++ "_o.jpg".data).length (Nat.le_refl _) hno]

def c8furl : FlickrUrl :=
  ⟨some "1", some "ow", some "sec", some "srv", none, none,
   some "https://x/a_o.jpg_o.jpg", none⟩

/-- C8 counterexample: for a descriptor whose original-size URL ends in a
segment containing the substring twice, the code rewrites both
occurrences — it returns a.jpg.jpg — while the final path segment with
only its trailing size suffix rewritten would be a_o.jpg.jpg, so
basename is not the suffix rewriting the claim describes. -/
theorem c8_counterexample :
    FlickrUrl.basename c8furl = .ok "a.jpg.jpg" ∧
    specBasename "https://x/a_o.jpg_o.jpg" = "a_o.jpg.jpg" ∧
    FlickrUrl.basename c8furl ≠ .ok (specBasename "https://x/a_o.jpg_o.jpg") := by
  refine ⟨by decide, by decide, by decide⟩

def c8wfurl : FlickrUrl :=
  ⟨some "7", some "ow", some "abc", some "srv", some "3", none,
   some "https://x/7_abc_o.jpg", none⟩

theorem c8_witness :
    FlickrUrl.basename c8wfurl =
      .ok (strReplace (osPathBasename "https://x/7_abc_o.jpg") "_o.jpg" ".jpg") ∧
    FlickrUrl.basename c8wfurl = .ok "7_abc.jpg" := by
  constructor
  · exact (c8_basename_replace c8wfurl "https://x/7_abc_o.jpg").1 rfl
  · have h := (c8_basename_replace c8wfurl "https://x/7_abc_o.jpg").2.2
      "7_abc".data rfl (by decide) (by decide)
    rw [h]
    decide
